import Mathlib

/-!
Shallow embedding of the `partial_struct` derive-macro engine
(`src/lib.rs`) and proofs about its specification.

The engine is embedded at the granularity of the data it manipulates:

* a directive's raw token sequence is a list of items (a string literal,
  a `key(idents...)` clause, or an unparseable token), mirroring the
  item-level shape that `PartialArgs::parse` consumes via `syn`;
* the generated output is a description value (`GeneratedDesc`): the
  target type name, the three field partitions, the remainder type name
  and the deterministically derived operation names;
* the value-level semantics of the five generated operations is given
  over name-indexed valuations of an abstract value type `V`; the
  `expect` panic in the generated reconstruction code is modelled as
  `Option.none`.

The Rust code builds `HashSet<String>` values for the omit/optional
name sets and iterates an intersection of them when reporting a
conflict; the iteration order of `std::collections::HashSet` is
unspecified and randomised per process.  That nondeterminism is made
explicit here as a parameter `σ : List String → List String` applied to
a canonical enumeration of the intersection; a legal `σ` (`LegalEnum`)
may permute the list arbitrarily, exactly as a hash-set iteration may.
-/

namespace PartialStruct

/-- One field of the source struct: name, type (opaque token text) and
attached attributes (opaque, copied verbatim). Mirrors `syn::Field` as
used by `derive_partial` in `src/lib.rs`. -/
structure Field where
  name : String
  ty : String
  attrs : List String
deriving DecidableEq, Repr

/-- One item of a `#[partial(...)]` attribute's token sequence, at the
granularity consumed by `PartialArgs::parse` (`src/lib.rs` lines
27-69): a string literal, a `key(ident, ...)`-shaped clause, or a token
that is neither (which the parser's lookahead rejects; a malformed
parenthesised list is also absorbed into this case). -/
inductive DirTok where
  | litStr (s : String)
  | clause (key : String) (ids : List String)
  | junk
deriving DecidableEq, Repr

/-- Parse errors of the directive grammar (`syn::Error` values produced
by `PartialArgs::parse`). -/
inductive ParseErr where
  | duplicateTarget
  | unknownKey (k : String)
  | unexpectedToken
deriving DecidableEq, Repr

/-- The parsed arguments of one `#[partial(...)]` attribute
(`struct PartialArgs`, `src/lib.rs` lines 13-18). -/
structure PartialArgs where
  target_name : Option String
  derive_traits : List String
  omit_fields : List String
  optional_fields : List String
deriving DecidableEq, Repr

/-- The all-default `PartialArgs` (also the default directive pushed
when no `#[partial]` attribute is present, `src/lib.rs` lines 124-129). -/
def emptyArgs : PartialArgs :=
  { target_name := none, derive_traits := [], omit_fields := [], optional_fields := [] }

/-- The parse loop of `PartialArgs::parse` (`src/lib.rs` lines 27-69):
a second string literal errors; `derive`/`omit`/`optional` clauses
extend the corresponding list; an unknown clause keyword or an
unexpected token errors. -/
def parseLoop : List DirTok → PartialArgs → Except ParseErr PartialArgs
  | [], acc => .ok acc
  | .litStr s :: rest, acc =>
      if acc.target_name.isSome then .error .duplicateTarget
      else parseLoop rest { acc with target_name := some s }
  | .clause k ids :: rest, acc =>
      if k = "derive" then
        parseLoop rest { acc with derive_traits := acc.derive_traits ++ ids }
      else if k = "omit" then
        parseLoop rest { acc with omit_fields := acc.omit_fields ++ ids }
      else if k = "optional" then
        parseLoop rest { acc with optional_fields := acc.optional_fields ++ ids }
      else .error (.unknownKey k)
  | .junk :: _, _ => .error .unexpectedToken

/-- `PartialArgs::parse`: run the parse loop on empty accumulators. -/
def parseArgs (toks : List DirTok) : Except ParseErr PartialArgs :=
  parseLoop toks emptyArgs

/-- The directive collector of `derive_partial` (`src/lib.rs` lines
86-117): parse every `#[partial]` attribute, surfacing the first parse
error; on success return the parsed list in source order. -/
def collectArgs : List (List DirTok) → Except ParseErr (List PartialArgs)
  | [] => .ok []
  | a :: rest =>
      match parseArgs a with
      | .error e => .error e
      | .ok args =>
          match collectArgs rest with
          | .error e => .error e
          | .ok l => .ok (args :: l)

/-- The shape of the annotated item's fields (`syn::Fields`). -/
inductive StructFields where
  | named (fields : List Field)
  | unnamed
  | unit
deriving DecidableEq, Repr

/-- The shape of the annotated item (`syn::Data`). -/
inductive Data where
  | struct (f : StructFields)
  | enum
  | union
deriving DecidableEq, Repr

/-- The macro input (`syn::DeriveInput`): item name, the token
sequences of its `#[partial]` attributes (in source order), and its
data shape. -/
structure DeriveInput where
  ident : String
  attrs : List (List DirTok)
  data : Data
deriving DecidableEq, Repr

/-- Modelled from the spec: the external `heck` crate's snake-case
conversion used for operation names (the spec's "fixed
lowercase-with-separators convention"): an underscore is inserted at
each lowercase-or-digit to uppercase boundary and all letters are
lowercased. -/
def snakeGo : Option Char → List Char → List Char
  | _, [] => []
  | prev, c :: cs =>
      let boundary :=
        c.isUpper && (match prev with
          | some p => p.isLower || p.isDigit
          | none => false)
      if boundary then '_' :: c.toLower :: snakeGo (some c) cs
      else c.toLower :: snakeGo (some c) cs

/-- Snake-case a name (see `snakeGo`). -/
def snakeCase (s : String) : String :=
  ⟨snakeGo none s.data⟩

/-- The description of one generated projection: target type name,
requested derives, the three field partitions, the remainder type name
(none when the omit partition is empty and the remainder is the unit
type), and the five deterministically derived operation names
(`src/lib.rs` lines 309-312, 336, 396-406). -/
structure GeneratedDesc where
  targetName : String
  derives : List String
  includedFields : List Field
  optionalFields : List Field
  omittedFields : List Field
  omittedStructName : Option String
  toMethodName : String
  clonedMethodName : String
  fromWithOmittedName : String
  intoWithOmittedName : String
deriving DecidableEq, Repr

/-- The output emitted for one directive: either a generated
description or a `compile_error!` token produced in its place
(`src/lib.rs` lines 219-225). -/
inductive ItemOut where
  | ok (g : GeneratedDesc)
  | compileError (msg : String)
deriving DecidableEq, Repr

/-- A diagnostic that aborts the whole pass: a directive parse error
(`src/lib.rs` line 116) or a record-shape error (lines 146-178). -/
inductive Diag where
  | parseErr (e : ParseErr)
  | shapeErr (msg : String)
deriving DecidableEq, Repr

/-- The full output of one `derive_partial` invocation. -/
inductive DeriveOutput where
  | fatal (d : Diag)
  | emitted (items : List ItemOut)
deriving DecidableEq, Repr

/-- Fields classified as omitted: name in the omit set
(`src/lib.rs` lines 204-214, the omit branch is tested first). -/
def omittedOf (omitN : List String) (fields : List Field) : List Field :=
  fields.filter fun f => omitN.contains f.name

/-- Fields classified as optional: not omitted and name in the
optional set. -/
def optionalOf (omitN optN : List String) (fields : List Field) : List Field :=
  fields.filter fun f => !(omitN.contains f.name) && optN.contains f.name

/-- Fields classified as included: in neither set. -/
def includedOf (omitN optN : List String) (fields : List Field) : List Field :=
  fields.filter fun f => !(omitN.contains f.name) && !(optN.contains f.name)

/-- Canonical enumeration of the intersection of the omit and optional
name sets (`omit_names.intersection(&optional_names)`, `src/lib.rs`
line 217): the distinct omit names that also occur among the optional
names.  The hash-set iteration order is applied on top of this by the
`σ` parameter of `generateOne`. -/
def conflictCanon (omitN optN : List String) : List String :=
  omitN.dedup.filter fun n => optN.contains n

/-- A legal hash-set enumeration: it may only permute the canonical
list, never add or drop names. -/
def LegalEnum (σ : List String → List String) : Prop :=
  ∀ l : List String, (σ l).Perm l

/-- The identity enumeration (one possible hash iteration order). -/
def hashId : List String → List String := fun l => l

/-- The reversing enumeration (another possible hash iteration
order). -/
def hashRev : List String → List String := fun l => l.reverse

/-- Generation for one directive (`src/lib.rs` lines 182-469): derive
the target name, partition the fields, check the omit/optional
conflict (emitting a `compile_error!` in place of this directive's
output when it fires), and otherwise build the generated description
with the deterministically derived names. -/
def generateOne (σ : List String → List String) (origName : String)
    (fields : List Field) (args : PartialArgs) : ItemOut :=
  let targetName := args.target_name.getD ("Partial" ++ origName)
  let conflict := σ (conflictCanon args.omit_fields args.optional_fields)
  if conflict.isEmpty then
    let toName := "to_" ++ snakeCase origName
    ItemOut.ok
      { targetName := targetName
        derives := args.derive_traits
        includedFields := includedOf args.omit_fields args.optional_fields fields
        optionalFields := optionalOf args.omit_fields args.optional_fields fields
        omittedFields := omittedOf args.omit_fields fields
        omittedStructName :=
          if (omittedOf args.omit_fields fields).isEmpty then none
          else some (targetName ++ "Omitted")
        toMethodName := toName
        clonedMethodName := toName ++ "_cloned"
        fromWithOmittedName := "from_" ++ snakeCase origName ++ "_with_omitted"
        intoWithOmittedName := "into_" ++ snakeCase targetName ++ "_with_omitted" }
  else
    ItemOut.compileError
      ("Field(s) cannot be both omitted and optional: " ++ String.intercalate ", " conflict)

/-- The whole macro body `derive_partial` (`src/lib.rs` lines 82-476):
collect and parse the `#[partial]` attributes (first parse error aborts
the pass), fall back to the single default directive when no attribute
is present, check the record shape, then emit the per-directive outputs
concatenated in directive order. -/
def derive_partial (σ : List String → List String) (inp : DeriveInput) : DeriveOutput :=
  match collectArgs inp.attrs with
  | .error e => .fatal (.parseErr e)
  | .ok parsed =>
      let argsList :=
        if parsed.isEmpty && inp.attrs.isEmpty then [emptyArgs] else parsed
      if argsList.isEmpty then .emitted []
      else
        match inp.data with
        | .struct (.named fields) =>
            .emitted (argsList.map (generateOne σ inp.ident fields))
        | .struct .unnamed =>
            .fatal (.shapeErr "Partial can only be derived for structs with named fields")
        | .struct .unit =>
            .fatal (.shapeErr "Partial cannot be derived for unit structs")
        | .enum =>
            .fatal (.shapeErr "Partial can only be derived for structs, not enums")
        | .union =>
            .fatal (.shapeErr "Partial can only be derived for structs, not unions")

/-- True when the pass emitted only successfully generated items. -/
def ItemOut.isOk : ItemOut → Bool
  | .ok _ => true
  | .compileError _ => false

/-- True when the pass emitted a list of items that are all
successfully generated (no fatal diagnostic, no per-directive
`compile_error!`). -/
def isSuccess : DeriveOutput → Bool
  | .emitted items => items.all ItemOut.isOk
  | .fatal _ => false

/-- True when the output contains at least one successfully generated
item. -/
def hasOkItem : DeriveOutput → Bool
  | .emitted items => items.any ItemOut.isOk
  | .fatal _ => false

/-- True when the output contains at least one per-directive
`compile_error!` item. -/
def hasDirectiveError : DeriveOutput → Bool
  | .emitted items => items.any fun i => !i.isOk
  | .fatal _ => false

/-- A value of the generated projection struct, over an abstract value
type `V`: a valuation for the included fields and an optional-valued
valuation for the optional fields.  Only the entries at included
(resp. optional) field names correspond to fields of the generated
struct; the functions are total for convenience of the embedding. -/
structure PartialVal (V : Type) where
  inc : String → V
  opt : String → Option V

/-- One field assignment of the consuming reconstruction
(`construction_assignments`, `src/lib.rs` lines 267-281), walking the
source fields in declaration order: an omitted field takes the supplied
parameter of the same name, an optional field takes the projection's
stored value if present and otherwise the supplied override parameter
(the `expect` panic when neither is present is modelled as `none`), an
included field takes the projection's value.  Parameters are passed
positionally in the generated code with names matching the
omitted/optional fields in declaration order; they are modelled here by
the name-indexed environments `pOmit` and `pOpt`. -/
def constructField {V : Type} (omitN optN : List String) (self : PartialVal V)
    (pOmit : String → V) (pOpt : String → Option V) (f : Field) : Option V :=
  if omitN.contains f.name then some (pOmit f.name)
  else if optN.contains f.name then (self.opt f.name).or (pOpt f.name)
  else some (self.inc f.name)

/-- One field assignment of the cloning reconstruction
(`cloned_construction_assignments`, `src/lib.rs` lines 283-297): the
same selection policy, reading the projection through a reference and
cloning; cloning is the identity on abstract values. -/
def cloned_constructField {V : Type} (omitN optN : List String) (self : PartialVal V)
    (pOmit : String → V) (pOpt : String → Option V) (f : Field) : Option V :=
  if omitN.contains f.name then some (pOmit f.name)
  else if optN.contains f.name then (self.opt f.name).or (pOpt f.name)
  else some (self.inc f.name)

/-- Build the full record's value list by walking the fields in
declaration order; any per-field fatal failure aborts the whole
construction. -/
def buildFull {V : Type} (g : Field → Option V) : List Field → Option (List V)
  | [] => some []
  | f :: fs => (g f).bind fun v => (buildFull g fs).map (v :: ·)

/-- The consuming reconstruction `to_<orig>` (`src/lib.rs` lines
418-425): construct the full record in original declaration order from
the projection and the supplied parameters. -/
def to_method {V : Type} (fields : List Field) (omitN optN : List String)
    (self : PartialVal V) (pOmit : String → V) (pOpt : String → Option V) :
    Option (List V) :=
  buildFull (constructField omitN optN self pOmit pOpt) fields

/-- The cloning reconstruction `to_<orig>_cloned` (`src/lib.rs` lines
427-437). -/
def to_method_cloned {V : Type} (fields : List Field) (omitN optN : List String)
    (self : PartialVal V) (pOmit : String → V) (pOpt : String → Option V) :
    Option (List V) :=
  buildFull (cloned_constructField omitN optN self pOmit pOpt) fields

/-- The `impl From<Orig> for Target` conversion (`project_included`,
`src/lib.rs` lines 362-368 and 452-460): each included field is moved
unchanged, each optional field's value is wrapped as present. -/
def fromFull {V : Type} (full : String → V) : PartialVal V :=
  { inc := fun n => full n, opt := fun n => some (full n) }

/-- The split `from_<orig>_with_omitted` (`src/lib.rs` lines 439-449,
via `partial_from_full_assignments` lines 370-379): destructure the
full record once, route included fields to the projection unchanged,
wrap optional fields as present, and collect the omitted fields into
the remainder (modelled as a valuation consulted at the omitted field
names). -/
def from_with_omitted {V : Type} (full : String → V) : PartialVal V × (String → V) :=
  ({ inc := fun n => full n, opt := fun n => some (full n) }, fun n => full n)

/-- The full record's values in declaration order. -/
def fullVals {V : Type} (fields : List Field) (full : String → V) : List V :=
  fields.map fun f => full f.name

/-- The spec's validity invariant for a Directive against a record:
every omit and optional name is a declared field and the two sets are
disjoint. -/
def directiveValid (fields : List Field) (args : PartialArgs) : Bool :=
  args.omit_fields.all (fun n => (fields.map Field.name).contains n) &&
  args.optional_fields.all (fun n => (fields.map Field.name).contains n) &&
  args.omit_fields.all (fun n => !args.optional_fields.contains n)

/-! ### Concrete inputs used by witnesses and counterexamples -/

/-- The `User` record of the repository's test suite. -/
def userFields : List Field :=
  [⟨"id", "u32", []⟩, ⟨"name", "String", []⟩, ⟨"email", "String", []⟩]

/-- The `MultiOmit` record of the repository's test suite. -/
def moFields : List Field :=
  [⟨"a", "u8", []⟩, ⟨"b", "u8", []⟩, ⟨"c", "u8", []⟩, ⟨"d", "u8", []⟩]

/-- A concrete valuation of the `User` record's fields. -/
def fullU : String → Nat :=
  fun n => if n = "id" then 1 else if n = "name" then 2 else 3

/-! ### Helper lemmas -/

/-- Building the full record succeeds with the expected value list when
every per-field construction succeeds with the expected value. -/
theorem buildFull_eq_map {V : Type} (g : Field → Option V) (vf : Field → V) :
    ∀ fs : List Field, (∀ f ∈ fs, g f = some (vf f)) →
      buildFull g fs = some (fs.map vf) := by
  intro fs
  induction fs with
  | nil => intro _; rfl
  | cons f rest ih =>
      intro h
      have hf := h f (List.mem_cons_self f rest)
      have hr := ih fun x hx => h x (List.mem_cons_of_mem f hx)
      simp [buildFull, hf, hr]

/-! ### Claims -/

/-- C3: for every directive with a non-empty omit set and every full
record, splitting with `from_<orig>_with_omitted` and then rebuilding
with the consuming reconstruction, supplying the remainder's field
values for the omitted parameters, reconstructs the original full
record, in original declaration order. -/
theorem c3_split_rebuild_roundtrip {V : Type} (fields : List Field)
    (omitN optN : List String) (full : String → V) (pOpt : String → Option V)
    (_h : omitN ≠ []) :
    to_method fields omitN optN (from_with_omitted full).1
      (from_with_omitted full).2 pOpt = some (fullVals fields full) := by
  unfold to_method fullVals
  apply buildFull_eq_map
  intro f _
  by_cases h1 : omitN.contains f.name
  · simp [constructField, from_with_omitted, h1]
  · by_cases h2 : optN.contains f.name
    · simp [constructField, from_with_omitted, h1, h2]
    · simp [constructField, from_with_omitted, h1, h2]

/-- C3 witness: splitting `User` on `omit(id), optional(email)` and
rebuilding with the remainder's fields yields the original record. -/
theorem c3_split_rebuild_roundtrip_witness :
    to_method userFields ["id"] ["email"] (from_with_omitted fullU).1
      (from_with_omitted fullU).2 (fun _ => none) = some (fullVals userFields fullU) :=
  c3_split_rebuild_roundtrip userFields ["id"] ["email"] fullU (fun _ => none)
    (by decide)

/-- C4: for every directive whose omit and optional sets are both
empty, converting a full record with the `From` impl and then calling
the consuming reconstruction (which then takes no parameters)
reconstructs the original record, in original declaration order. -/
theorem c4_from_to_roundtrip {V : Type} (fields : List Field)
    (omitN optN : List String) (full : String → V)
    (pOmit : String → V) (pOpt : String → Option V)
    (h1 : omitN = []) (h2 : optN = []) :
    to_method fields omitN optN (fromFull full) pOmit pOpt =
      some (fullVals fields full) := by
  subst h1; subst h2
  unfold to_method fullVals
  apply buildFull_eq_map
  intro f _
  simp [constructField, fromFull]

/-- C4 witness: the empty directive on `User` round-trips. -/
theorem c4_from_to_roundtrip_witness :
    to_method userFields [] [] (fromFull fullU) (fun _ => 0) (fun _ => none) =
      some (fullVals userFields fullU) :=
  c4_from_to_roundtrip userFields [] [] fullU (fun _ => 0) (fun _ => none) rfl rfl

/-- C5: in both the consuming and the cloning reconstruction, an
optional field's stored projection value, when present, is used and the
supplied override parameter is ignored; the override parameter is used
only when the stored value is absent; and the construction fails
fatally (modelled as `none`) when neither is present. -/
theorem c5_optional_priority {V : Type} (omitN optN : List String)
    (self : PartialVal V) (pOmit : String → V) (pOpt : String → Option V)
    (f : Field) (h1 : omitN.contains f.name = false)
    (h2 : optN.contains f.name = true) :
    (∀ v, self.opt f.name = some v →
        constructField omitN optN self pOmit pOpt f = some v ∧
        cloned_constructField omitN optN self pOmit pOpt f = some v) ∧
    (self.opt f.name = none →
        constructField omitN optN self pOmit pOpt f = pOpt f.name ∧
        cloned_constructField omitN optN self pOmit pOpt f = pOpt f.name) ∧
    (self.opt f.name = none → pOpt f.name = none →
        constructField omitN optN self pOmit pOpt f = none ∧
        cloned_constructField omitN optN self pOmit pOpt f = none) := by
  refine ⟨fun v hv => ?_, fun hn => ?_, fun hn hp => ?_⟩ <;>
    constructor <;>
      simp_all [constructField, cloned_constructField]

/-- C5 witness: with a stored value `some 7` and a supplied override
`none`, both reconstructions use the stored value. -/
theorem c5_optional_priority_witness :
    constructField [] ["email"] (⟨fun _ => 0, fun _ => some 7⟩ : PartialVal Nat)
      (fun _ => 0) (fun _ => none) ⟨"email", "String", []⟩ = some 7 ∧
    cloned_constructField [] ["email"] (⟨fun _ => 0, fun _ => some 7⟩ : PartialVal Nat)
      (fun _ => 0) (fun _ => none) ⟨"email", "String", []⟩ = some 7 :=
  (c5_optional_priority [] ["email"] ⟨fun _ => 0, fun _ => some 7⟩
    (fun _ => 0) (fun _ => none) ⟨"email", "String", []⟩ rfl rfl).1 7 rfl

/-- C8 counterexample: a directive with two `omit(...)` clauses parses
successfully to a single merged `PartialArgs` value with the two
argument lists concatenated, contradicting the claim that a second
occurrence does not parse to a single merged directive. -/
theorem c8_two_omit_clauses_merge :
    parseArgs [.clause "omit" ["a"], .clause "omit" ["b"]] =
      .ok { target_name := none, derive_traits := [], omit_fields := ["a", "b"],
            optional_fields := [] } := rfl

/-- C8 amended: the grammar enforces at most one string literal (a
second one is a parse error), but repeated `derive(...)`, `omit(...)`
and `optional(...)` clauses are accepted, each behaving exactly as a
single clause holding the concatenation of their argument lists. -/
theorem c8_grammar_multiplicity :
    (∀ (s₁ s₂ : String) (rest : List DirTok),
        parseArgs (.litStr s₁ :: .litStr s₂ :: rest) = .error .duplicateTarget) ∧
    (∀ (a₁ a₂ : List String) (rest : List DirTok),
        parseArgs (.clause "derive" a₁ :: .clause "derive" a₂ :: rest) =
          parseArgs (.clause "derive" (a₁ ++ a₂) :: rest)) ∧
    (∀ (a₁ a₂ : List String) (rest : List DirTok),
        parseArgs (.clause "omit" a₁ :: .clause "omit" a₂ :: rest) =
          parseArgs (.clause "omit" (a₁ ++ a₂) :: rest)) ∧
    (∀ (a₁ a₂ : List String) (rest : List DirTok),
        parseArgs (.clause "optional" a₁ :: .clause "optional" a₂ :: rest) =
          parseArgs (.clause "optional" (a₁ ++ a₂) :: rest)) :=
  ⟨fun _ _ _ => rfl, fun _ _ _ => rfl, fun _ _ _ => rfl, fun _ _ _ => rfl⟩

/-- C9: for every full record and valid directive, the `From`
conversion produces exactly the projection component of the split, and
both move each included field's value unchanged and wrap each optional
field's value as present. -/
theorem c9_fromFull_eq_split_projection {V : Type} (fields : List Field)
    (args : PartialArgs) (full : String → V)
    (_h : directiveValid fields args = true) :
    (from_with_omitted full).1 = fromFull full ∧
    ∀ f ∈ fields,
      (from_with_omitted full).1.inc f.name = full f.name ∧
      (from_with_omitted full).1.opt f.name = some (full f.name) ∧
      (fromFull full).inc f.name = full f.name ∧
      (fromFull full).opt f.name = some (full f.name) :=
  ⟨rfl, fun _ _ => ⟨rfl, rfl, rfl, rfl⟩⟩

/-- C9 witness: on the `User` record with `omit(id), optional(email)`
the two projections coincide. -/
theorem c9_fromFull_eq_split_projection_witness :
    (from_with_omitted fullU).1 = fromFull fullU :=
  (c9_fromFull_eq_split_projection userFields
    { target_name := none, derive_traits := [], omit_fields := ["id"],
      optional_fields := ["email"] } fullU (by decide)).1

/-- A name whose containment test over the record's field names is
false differs from every field's name (as a `BEq` test). -/
theorem name_ne_of_no_contains {fields : List Field} {n : String}
    (h : (fields.map Field.name).contains n = false) :
    ∀ f ∈ fields, f.name ≠ n := by
  intro f hf
  have hn : n ∉ fields.map Field.name := by
    simpa [List.contains] using h
  exact fun he => hn (he ▸ List.mem_map_of_mem Field.name hf)

/-- C1: the claim fails — `derive_partial` performs no unknown-field
check.  Amended: a name in the omit or optional set that matches no
declared field (and does not collide with the other set) is silently
ignored: adding it changes nothing in the generated output. -/
theorem c1_unknown_name_silently_ignored (σ : List String → List String)
    (origName : String) (fields : List Field) (args : PartialArgs) (n : String)
    (hf : (fields.map Field.name).contains n = false)
    (hopt : args.optional_fields.contains n = false)
    (homit : args.omit_fields.contains n = false) :
    generateOne σ origName fields { args with omit_fields := n :: args.omit_fields } =
      generateOne σ origName fields args ∧
    generateOne σ origName fields
        { args with optional_fields := n :: args.optional_fields } =
      generateOne σ origName fields args := by
  have hne := name_ne_of_no_contains hf
  have hoptp : n ∉ args.optional_fields := by simpa [List.contains] using hopt
  have homitp : n ∉ args.omit_fields := by simpa [List.contains] using homit
  have e1 : omittedOf (n :: args.omit_fields) fields = omittedOf args.omit_fields fields := by
    unfold omittedOf
    exact List.filter_congr fun f hfm => by simp [hne f hfm]
  have e2 : optionalOf (n :: args.omit_fields) args.optional_fields fields =
      optionalOf args.omit_fields args.optional_fields fields := by
    unfold optionalOf
    exact List.filter_congr fun f hfm => by simp [hne f hfm]
  have e3 : includedOf (n :: args.omit_fields) args.optional_fields fields =
      includedOf args.omit_fields args.optional_fields fields := by
    unfold includedOf
    exact List.filter_congr fun f hfm => by simp [hne f hfm]
  have e4 : conflictCanon (n :: args.omit_fields) args.optional_fields =
      conflictCanon args.omit_fields args.optional_fields := by
    unfold conflictCanon
    by_cases hm : n ∈ args.omit_fields
    · rw [List.dedup_cons_of_mem hm]
    · rw [List.dedup_cons_of_not_mem hm]
      simp [List.filter_cons, hoptp]
  have e5 : optionalOf args.omit_fields (n :: args.optional_fields) fields =
      optionalOf args.omit_fields args.optional_fields fields := by
    unfold optionalOf
    exact List.filter_congr fun f hfm => by simp [hne f hfm]
  have e6 : includedOf args.omit_fields (n :: args.optional_fields) fields =
      includedOf args.omit_fields args.optional_fields fields := by
    unfold includedOf
    exact List.filter_congr fun f hfm => by simp [hne f hfm]
  have e7 : conflictCanon args.omit_fields (n :: args.optional_fields) =
      conflictCanon args.omit_fields args.optional_fields := by
    unfold conflictCanon
    apply List.filter_congr
    intro x hx
    have hxo : x ∈ args.omit_fields := List.mem_dedup.mp hx
    have hxn : x ≠ n := fun he => homitp (he ▸ hxo)
    simp [hxn]
  constructor
  · simp only [generateOne, e1, e2, e3, e4]
  · simp only [generateOne, e5, e6, e7]

/-- C1 counterexample: on the `User` record, a directive whose omit set
names the non-existent field `ghost` generates successfully — no
`UnknownFieldError` (or any error) is raised. -/
theorem c1_unknown_name_accepted :
    isSuccess ( derive_partial hashId
      ⟨"User", [[.clause "omit" ["ghost"]]], .struct (.named userFields)⟩) = true := rfl

/-- C1 witness: adding the unknown name `ghost` to the (empty) omit or
optional set of the default directive on `User` leaves the generated
output unchanged. -/
theorem c1_unknown_name_silently_ignored_witness :
    generateOne hashId "User" userFields
        { emptyArgs with omit_fields := "ghost" :: emptyArgs.omit_fields } =
      generateOne hashId "User" userFields emptyArgs ∧
    generateOne hashId "User" userFields
        { emptyArgs with optional_fields := "ghost" :: emptyArgs.optional_fields } =
      generateOne hashId "User" userFields emptyArgs :=
  c1_unknown_name_silently_ignored hashId "User" userFields emptyArgs "ghost"
    rfl rfl rfl

/-- C2 amended: a directive *parse* error aborts the whole pass (see
the C10 theorem), but a conflicting-classification error does not: each
directive's output is generated independently and concatenated, so the
failing directive contributes a `compile_error!` item while the other
directives' generated output is still emitted. -/
theorem c2_per_directive_outputs (σ : List String → List String)
    (ident : String) (attrs : List (List DirTok)) (fields : List Field)
    (l : List PartialArgs) (hc : collectArgs attrs = .ok l) (hne : l ≠ []) :
    derive_partial σ ⟨ident, attrs, .struct (.named fields)⟩ =
      .emitted (l.map (generateOne σ ident fields)) := by
  cases l with
  | nil => exact absurd rfl hne
  | cons a as => simp [ derive_partial, hc]

/-- C2 counterexample: a `User` record carrying one valid directive and
one directive with an omit/optional conflict emits the valid
directive's generated output *alongside* the error item — partial
output is emitted. -/
theorem c2_partial_output_emitted :
    hasOkItem ( derive_partial hashId
      ⟨"User", [[.clause "omit" ["id"]],
                [.clause "omit" ["name"], .clause "optional" ["name"]]],
       .struct (.named userFields)⟩) = true ∧
    hasDirectiveError ( derive_partial hashId
      ⟨"User", [[.clause "omit" ["id"]],
                [.clause "omit" ["name"], .clause "optional" ["name"]]],
       .struct (.named userFields)⟩) = true :=
  ⟨rfl, rfl⟩

/-- C2 witness: the per-directive characterisation instantiated on a
`User` record with a single `omit(id)` directive. -/
theorem c2_per_directive_outputs_witness :
    derive_partial hashId ⟨"User", [[.clause "omit" ["id"]]], .struct (.named userFields)⟩ =
      .emitted ([{ target_name := none, derive_traits := [], omit_fields := ["id"],
                   optional_fields := [] }].map (generateOne hashId "User" userFields)) :=
  c2_per_directive_outputs hashId "User" [[.clause "omit" ["id"]]] userFields
    [{ target_name := none, derive_traits := [], omit_fields := ["id"],
       optional_fields := [] }] rfl (by decide)

/-- C10: when any `#[partial]` attribute fails to parse, the first
parse error is the single surfaced diagnostic whatever the record's
data shape is — directive parsing happens before the shape check, so an
ineligible (enum/union/tuple/unit) record with a malformed directive
reports the parse error. -/
theorem c10_parse_error_precedes_shape_check (σ : List String → List String)
    (ident : String) (attrs : List (List DirTok)) (d : Data) (e : ParseErr)
    (h : collectArgs attrs = .error e) :
    derive_partial σ ⟨ident, attrs, d⟩ = .fatal (.parseErr e) := by
  simp [ derive_partial, h]

/-- C10 witness: an enum carrying a directive with the unknown clause
keyword `bogus` reports the parse error, not the shape error. -/
theorem c10_parse_error_precedes_shape_check_witness :
    derive_partial hashId ⟨"E", [[.clause "bogus" ["x"]]], .enum⟩ =
      .fatal (.parseErr (.unknownKey "bogus")) :=
  c10_parse_error_precedes_shape_check hashId "E" [[.clause "bogus" ["x"]]] .enum
    (.unknownKey "bogus") rfl

/-- C6 amended: when the omit and optional sets intersect, generation
for that directive fails with the conflict error, whose message
enumerates every conflicting name — the enumeration is a permutation of
the full intersection, in hash-set iteration order, which the code does
not sort. -/
theorem c6_conflict_enumerates_all (σ : List String → List String)
    (hσ : LegalEnum σ) (origName : String) (fields : List Field)
    (args : PartialArgs)
    (h : conflictCanon args.omit_fields args.optional_fields ≠ []) :
    generateOne σ origName fields args =
      .compileError ("Field(s) cannot be both omitted and optional: " ++
        String.intercalate ", "
          (σ (conflictCanon args.omit_fields args.optional_fields))) ∧
    (σ (conflictCanon args.omit_fields args.optional_fields)).Perm
      (conflictCanon args.omit_fields args.optional_fields) := by
  have hperm := hσ (conflictCanon args.omit_fields args.optional_fields)
  have hne : σ (conflictCanon args.omit_fields args.optional_fields) ≠ [] := by
    intro h0
    rw [h0] at hperm
    exact h hperm.symm.eq_nil
  have he : (σ (conflictCanon args.omit_fields args.optional_fields)).isEmpty = false := by
    cases hl : σ (conflictCanon args.omit_fields args.optional_fields) with
    | nil => exact absurd hl hne
    | cons x xs => rfl
  exact ⟨by simp [generateOne, he], hσ (conflictCanon args.omit_fields args.optional_fields)⟩

/-- C6 counterexample: under the (legal) reversed hash-iteration order,
the conflict message for omit `a, b` / optional `a, b` on `MultiOmit`
lists the names as `b, a` — every conflicting name, but not in sorted
order (`a, b` is the only sorted enumeration of this intersection, and
the output differs from it), so the claim's "sorted for determinism" is
false. -/
theorem c6_conflict_message_unsorted :
    LegalEnum hashRev ∧
    generateOne hashRev "MultiOmit" moFields
        { target_name := none, derive_traits := [], omit_fields := ["a", "b"],
          optional_fields := ["a", "b"] } =
      .compileError "Field(s) cannot be both omitted and optional: b, a" ∧
    generateOne hashRev "MultiOmit" moFields
        { target_name := none, derive_traits := [], omit_fields := ["a", "b"],
          optional_fields := ["a", "b"] } ≠
      .compileError "Field(s) cannot be both omitted and optional: a, b" :=
  ⟨fun l => l.reverse_perm, rfl, by decide⟩

/-- C6 witness: the amended theorem instantiated at the reversed
enumeration on `MultiOmit` with omit `a, b` and optional `a, b`. -/
theorem c6_conflict_enumerates_all_witness :
    generateOne hashRev "MultiOmit" moFields
        { target_name := none, derive_traits := [], omit_fields := ["a", "b"],
          optional_fields := ["a", "b"] } =
      .compileError ("Field(s) cannot be both omitted and optional: " ++
        String.intercalate ", " (hashRev (conflictCanon ["a", "b"] ["a", "b"]))) ∧
    (hashRev (conflictCanon ["a", "b"] ["a", "b"])).Perm
      (conflictCanon ["a", "b"] ["a", "b"]) :=
  c6_conflict_enumerates_all hashRev (fun l => l.reverse_perm) "MultiOmit" moFields
    { target_name := none, derive_traits := [], omit_fields := ["a", "b"],
      optional_fields := ["a", "b"] } (by decide)

/-- Generation for one directive does not depend on the hash-set
iteration order whenever it succeeds: a successful directive has an
empty conflict set, which every legal enumeration maps to the empty
list. -/
theorem generateOne_hash_indep (σ₁ σ₂ : List String → List String)
    (h₁ : LegalEnum σ₁) (h₂ : LegalEnum σ₂) (origName : String)
    (fields : List Field) (args : PartialArgs)
    (hok : (generateOne σ₁ origName fields args).isOk = true) :
    generateOne σ₁ origName fields args = generateOne σ₂ origName fields args := by
  by_cases he : (σ₁ (conflictCanon args.omit_fields args.optional_fields)).isEmpty = true
  · have hnil : σ₁ (conflictCanon args.omit_fields args.optional_fields) = [] := by
      cases hl : σ₁ (conflictCanon args.omit_fields args.optional_fields) with
      | nil => rfl
      | cons x xs => rw [hl] at he; exact absurd he (by simp)
    have hcnil : conflictCanon args.omit_fields args.optional_fields = [] := by
      have hp := h₁ (conflictCanon args.omit_fields args.optional_fields)
      rw [hnil] at hp
      exact hp.symm.eq_nil
    have h2nil : σ₂ (conflictCanon args.omit_fields args.optional_fields) = [] := by
      rw [hcnil]
      exact (h₂ []).eq_nil
    unfold generateOne
    rw [hnil, h2nil]
  · exfalso
    have he' : (σ₁ (conflictCanon args.omit_fields args.optional_fields)).isEmpty = false :=
      by revert he; cases (σ₁ (conflictCanon args.omit_fields args.optional_fields)).isEmpty <;> simp
    simp [generateOne, he', ItemOut.isOk] at hok

/-- C7 amended: two generation passes over byte-identical input produce
identical output whenever the pass succeeds; the only hash-order
dependence is the name ordering inside a conflict error message, so the
claimed byte-identical determinism holds on every error-free pass (and
all generated names are deterministic functions of the input). -/
theorem c7_deterministic_on_success (σ₁ σ₂ : List String → List String)
    (h₁ : LegalEnum σ₁) (h₂ : LegalEnum σ₂) (inp : DeriveInput)
    (hs : isSuccess ( derive_partial σ₁ inp) = true) :
    derive_partial σ₁ inp = derive_partial σ₂ inp := by
  cases hcol : collectArgs inp.attrs with
  | error e => simp [ derive_partial, hcol, isSuccess] at hs
  | ok parsed =>
      simp only [ derive_partial, hcol] at hs ⊢
      by_cases hemp : (if parsed.isEmpty && inp.attrs.isEmpty then [emptyArgs]
          else parsed).isEmpty = true
      · simp only [if_pos hemp]
      · simp only [if_neg hemp] at hs ⊢
        revert hs
        cases inp.data with
        | struct sf =>
            cases sf with
            | named fields =>
                intro hs
                dsimp only [isSuccess] at hs
                refine congrArg DeriveOutput.emitted (List.map_congr_left ?_)
                intro a ha
                apply generateOne_hash_indep σ₁ σ₂ h₁ h₂
                exact List.all_eq_true.mp hs _ (List.mem_map_of_mem _ ha)
            | unnamed => intro hs; simp [isSuccess] at hs
            | unit => intro hs; simp [isSuccess] at hs
        | enum => intro hs; simp [isSuccess] at hs
        | union => intro hs; simp [isSuccess] at hs

/-- C7 counterexample: on a record whose only directive has a
two-element omit/optional conflict, two legal hash-iteration orders
(identity and reversal) produce different outputs for byte-identical
input, refuting unconditional byte-identical determinism. -/
theorem c7_error_output_hash_dependent :
    LegalEnum hashId ∧ LegalEnum hashRev ∧
    derive_partial hashId
        ⟨"MultiOmit", [[.clause "omit" ["a", "b"], .clause "optional" ["a", "b"]]],
         .struct (.named moFields)⟩ ≠
      derive_partial hashRev
        ⟨"MultiOmit", [[.clause "omit" ["a", "b"], .clause "optional" ["a", "b"]]],
         .struct (.named moFields)⟩ :=
  ⟨fun l => List.Perm.refl l, fun l => l.reverse_perm, by decide⟩

/-- C7 witness: the determinism theorem instantiated at the identity
and reversed enumerations on a successful `User` pass. -/
theorem c7_deterministic_on_success_witness :
    derive_partial hashId
        ⟨"User", [[.clause "omit" ["id"], .clause "optional" ["email"]]],
         .struct (.named userFields)⟩ =
      derive_partial hashRev
        ⟨"User", [[.clause "omit" ["id"], .clause "optional" ["email"]]],
         .struct (.named userFields)⟩ :=
  c7_deterministic_on_success hashId hashRev (fun l => List.Perm.refl l)
    (fun l => l.reverse_perm)
    ⟨"User", [[.clause "omit" ["id"], .clause "optional" ["email"]]],
     .struct (.named userFields)⟩ rfl

end PartialStruct
